import Mathlib

/-!
Verification development for `snowglobes/fluxes/pinched.C`.

Shallow embedding of the pinched-spectrum flux generator.

Conventions of the embedding

* C `double` is idealised as `ℝ` (exact real arithmetic): `M_PI` is `Real.pi`,
  `pow` is real power, `tgamma` is the Euler gamma function, `exp` is `Real.exp`.
  Rounding, overflow to infinity and NaN are outside the model.  Real power and
  the C `pow` agree for a positive base, and for base `0` with a non-negative
  exponent; for base `0` and a negative exponent C returns `+inf` while real
  power returns `0`.
* Decimal literals read from the parameter file denote rational numbers, so the
  extraction layer computes a decimal literal and its value in `ℚ`; the value
  is cast to `ℝ` when it is stored in a `double`.
* `int` is `ℤ`, with the 32-bit range enforced where a value is extracted; the
  range of `double` is not enforced on extraction.
* `ifstream` is a buffer of unread characters with its `eofbit` and `failbit`;
  `operator>>` follows the standard library's formatted numeric extraction
  (sentry, whitespace skip, longest numeric prefix, conversion).
* Console output (`cout`, `printf`) is not modelled.
* Definitions that hold a `double` are marked noncomputable because `ℝ` is; the
  extraction layer, the file names and the control flow of the record loop do
  not depend on real arithmetic and evaluate on concrete inputs.
-/

namespace Pinched

/-! ## Constants and the spectral shape (lines 46-48, 224-229) -/

/-- Source line 46: `const double dist=3.08568025e22;` (cm). -/
noncomputable def dist : ℝ := 3.08568025e22

/-- Source line 47: `const double gevpererg = 624.15;`. -/
noncomputable def gevpererg : ℝ := 624.15

/-- Source line 48: `double estep=0.0002;` (never assigned afterwards). -/
noncomputable def estep : ℝ := 0.0002

/-- Source lines 224-229: `double phi(double E_nu, double E_nu0, double alpha)`. -/
noncomputable def phi (E_nu E_nu0 alpha : ℝ) : ℝ :=
  let N := (alpha + 1) ^ (alpha + 1) / (E_nu0 * Real.Gamma (alpha + 1))
  let R := N * (E_nu / E_nu0) ^ alpha * Real.exp ((-1) * (alpha + 1) * E_nu / E_nu0)
  R

/-- Source lines 193-197: the value stored in `F[j]` for one species, as a function of
the current `E_nu` and of that species' `L[j]`, `E0[j]`, `alpha[j]`. -/
noncomputable def fluxEntry (E_nu L E0 alpha : ℝ) : ℝ :=
  if E0 > 0 then
    1 / (4 * Real.pi * dist * dist) * L / E0 * phi E_nu E0 alpha * estep
  else
    0

/-! ## Program variables and output files (lines 30-43) -/

/-- A `double[3]` array: index 0 is nue, 1 is nuebar, 2 is nux. -/
abbrev Vec3 := Fin 3 → ℝ

/-- One line of an output file: its numeric columns. -/
abbrev Line := List ℝ

/-- What has been written to an `ofstream` since it was opened. -/
abbrev FileBody := List Line

/-- The variables of the program that the record loop reads and writes: the local `i`
of `main` and the globals `F`, `E0`, `L`, `alpha`, `E_nu` (lines 38-43, 82). -/
structure Vars where
  i : Int
  F : Vec3
  E0 : Vec3
  L : Vec3
  alpha : Vec3
  E_nu : ℝ

/-- Globals have static storage and start zeroed; `i` is uninitialised in the source
and is assigned by the first extraction before any use. -/
noncomputable def Vars.init : Vars :=
  { i := 0, F := fun _ => 0, E0 := fun _ => 0, L := fun _ => 0, alpha := fun _ => 0, E_nu := 0 }

/-- The three global output streams `outfile`, `outfile_nh`, `outfile_ih` (lines 31-33). -/
structure Outfiles where
  outfile : FileBody
  outfile_nh : FileBody
  outfile_ih : FileBody

/-- Modelled from the spec: `write` is defined in `supernova_mixing.h`, which is not among
the sources.  Spec section 6: "Output row format per sample: `E[GeV]  flux_nue
flux_nuebar  flux_nux`"; one row is appended per call. -/
def write (a : ℝ) (b : Vec3) (outfile : FileBody) : FileBody :=
  outfile ++ [[a, b 0, b 1, b 2]]

/-- The two mixing writers of `supernova_mixing.h`, which is not among the sources and
whose formulas the spec leaves open.  They are parameters of the embedding: each maps the
energy, the flux triple, the angle and the stream written so far to the stream afterwards. -/
structure MixingHeader where
  write_nh : ℝ → Vec3 → ℝ → FileBody → FileBody
  write_ih : ℝ → Vec3 → ℝ → FileBody → FileBody

/-! ## The energy loop (lines 187-207) -/

/-- Body of `for(int i=0; i<=500; i++)` (lines 190-206): fill `F`, write the row(s),
advance `E_nu`.  `th12` is the value of `atof(argv[1])`. -/
noncomputable def energyStep (hdr : MixingHeader) (th12 : ℚ) (v : Vars) (o : Outfiles) :
    Vars × Outfiles :=
  let v1 : Vars := { v with F := fun j => fluxEntry v.E_nu (v.L j) (v.E0 j) (v.alpha j) }
  let o1 : Outfiles := { o with outfile := write v1.E_nu v1.F o.outfile }
  let o2 : Outfiles :=
    if |th12| > 0 then
      { o1 with
        outfile_nh := hdr.write_nh v1.E_nu v1.F (th12 : ℝ) o1.outfile_nh
        outfile_ih := hdr.write_ih v1.E_nu v1.F (th12 : ℝ) o1.outfile_ih }
    else o1
  ({ v1 with E_nu := v1.E_nu + estep }, o2)

/-- The loop `for(int i=0; i<=500; i++)`, by the number of iterations still to run
(the body does not use the loop variable). -/
noncomputable def energyLoop (hdr : MixingHeader) (th12 : ℚ) : Nat → Vars → Outfiles →
    Vars × Outfiles
  | 0, v, o => (v, o)
  | n + 1, v, o => energyLoop hdr th12 n (energyStep hdr th12 v o).1 (energyStep hdr th12 v o).2

/-- Lines 188-207: `E_nu=0;` followed by the 501 iterations (`i = 0 .. 500`), on freshly
opened output streams. -/
noncomputable def energyScan (hdr : MixingHeader) (th12 : ℚ) (v : Vars) : Vars × Outfiles :=
  energyLoop hdr th12 501 { v with E_nu := 0 } { outfile := [], outfile_nh := [], outfile_ih := [] }

/-- Lines 104-119: `E0[k]/=1000.` for the three species and `L[k] *= gevpererg`. -/
noncomputable def convertUnits (v : Vars) : Vars :=
  { v with E0 := fun k => v.E0 k / 1000, L := fun k => v.L k * gevpererg }

/-! ## The input stream and formatted extraction (`infile >> x`) -/

/-- State of `ifstream infile`: unread characters and the two state bits that
`good()` tests (no read error of the device is modelled, so `badbit` stays clear). -/
structure IStream where
  buf : List Char
  eofbit : Bool
  failbit : Bool
  deriving DecidableEq

/-- The call `infile.good()`. -/
def IStream.good (s : IStream) : Bool := !s.eofbit && !s.failbit

/-- The `isspace` classification in the "C" locale. -/
def isspace (c : Char) : Bool :=
  c == ' ' || c == '\t' || c == '\n' || c == '\x0b' || c == '\x0c' || c == '\r'

/-- Decimal digit. -/
def isdigit (c : Char) : Bool := decide ('0' ≤ c) && decide (c ≤ '9')

/-- Whitespace skipping done by the sentry of a formatted extraction. -/
def skipws : List Char → List Char
  | [] => []
  | c :: cs => if isspace c then skipws cs else c :: cs

/-- Optional sign: `true` for a minus sign. -/
def scanSign : List Char → Bool × List Char
  | [] => (false, [])
  | c :: cs =>
    if c = '-' then (true, cs) else if c = '+' then (false, cs) else (false, c :: cs)

/-- Longest prefix of decimal digits, and what follows it. -/
def scanDigits : List Char → List Char × List Char
  | [] => ([], [])
  | c :: cs =>
    if isdigit c then ((c :: (scanDigits cs).1), (scanDigits cs).2) else ([], c :: cs)

/-- Value of a string of decimal digits. -/
def digitsVal (ds : List Char) : Nat :=
  ds.foldl (fun n c => 10 * n + (c.toNat - 48)) 0

/-- A digit string with its sign applied. -/
def signedVal (neg : Bool) (ds : List Char) : Int :=
  if neg then -(digitsVal ds : Int) else (digitsVal ds : Int)

/-- Extraction of an `int` from the characters at the read position: optional sign, then
digits; fails when there is no digit or the value does not fit 32 bits.  Returns the
value (if any) and the unread characters. -/
def scanInt (cs : List Char) : Option Int × List Char :=
  let sg := scanSign cs
  let dg := scanDigits sg.2
  if dg.1.isEmpty then (none, dg.2)
  else if -2147483648 ≤ signedVal sg.1 dg.1 ∧ signedVal sg.1 dg.1 ≤ 2147483647 then
    (some (signedVal sg.1 dg.1), dg.2)
  else (none, dg.2)

/-- Optional fraction: a decimal point and the digits after it. -/
def scanFrac : List Char → List Char × List Char
  | [] => ([], [])
  | c :: cs => if c = '.' then scanDigits cs else ([], c :: cs)

/-- Exponent digits after the exponent letter: optional sign, then at least one digit. -/
def scanExpDigits (cs : List Char) : Option Int × List Char :=
  let sg := scanSign cs
  let dg := scanDigits sg.2
  if dg.1.isEmpty then (none, dg.2) else (some (signedVal sg.1 dg.1), dg.2)

/-- Optional exponent part; an absent exponent is exponent `0`, an exponent letter
without digits is a failure. -/
def scanExp : List Char → Option Int × List Char
  | [] => (some 0, [])
  | c :: cs => if c = 'e' ∨ c = 'E' then scanExpDigits cs else (some 0, c :: cs)

/-- A decimal floating literal as accumulated from the input: sign, all mantissa digits
read as one number, how many of them follow the decimal point, and the exponent. -/
structure DecLit where
  neg : Bool
  digits : Nat
  fracLen : Nat
  exp : Int
  deriving DecidableEq

/-- The number a decimal literal denotes. -/
def DecLit.toRat (d : DecLit) : ℚ :=
  (if d.neg then -1 else 1) * ((d.digits : ℚ) / 10 ^ d.fracLen) * 10 ^ d.exp

/-- Extraction of a `double` from the characters at the read position: optional sign,
digits with an optional fraction (at least one digit in all), optional exponent.
Returns the literal (if any) and the unread characters. -/
def scanDouble (cs : List Char) : Option DecLit × List Char :=
  let sg := scanSign cs
  let ip := scanDigits sg.2
  let fp := scanFrac ip.2
  if ip.1.isEmpty && fp.1.isEmpty then (none, fp.2)
  else
    let ex := scanExp fp.2
    (ex.1.map (fun e => { neg := sg.1, digits := digitsVal (ip.1 ++ fp.1),
                          fracLen := fp.1.length, exp := e }), ex.2)

/-- One formatted extraction `infile >> x` with scanner `scan`.  If the stream is not
good the sentry fails and sets `failbit`.  Otherwise whitespace is skipped; reaching the
end of input there sets `eofbit` and `failbit`.  Otherwise the scanner runs; `eofbit` is
set when it ran into the end of input, `failbit` when it produced no value. -/
def extract {α : Type} (scan : List Char → Option α × List Char) (s : IStream) :
    IStream × Option α :=
  if s.good then
    match skipws s.buf with
    | [] => ({ buf := [], eofbit := true, failbit := true }, none)
    | c :: cs =>
      ({ buf := (scan (c :: cs)).2, eofbit := (scan (c :: cs)).2.isEmpty,
         failbit := (scan (c :: cs)).1.isNone }, (scan (c :: cs)).1)
  else
    ({ s with failbit := true }, none)

/-- The statement `infile >> x;` for `int x`: the stream afterwards and the value of `x`
(kept when nothing was extracted; the loop leaves before any such value is used). -/
def readInt (s : IStream) (x : Int) : IStream × Int :=
  ((extract scanInt s).1, ((extract scanInt s).2).getD x)

/-- The statement `infile >> x;` for `double x`. -/
noncomputable def readDouble (s : IStream) (x : ℝ) : IStream × ℝ :=
  ((extract scanDouble s).1,
    (((extract scanDouble s).2).map (fun d => ((d.toRat : ℚ) : ℝ))).getD x)

/-- Lines 92-101: the ten extractions of one record. -/
noncomputable def readRecord (s : IStream) (v : Vars) : IStream × Vars :=
  let r0 := readInt s v.i
  let r1 := readDouble r0.1 (v.alpha 0)
  let r2 := readDouble r1.1 (v.alpha 1)
  let r3 := readDouble r2.1 (v.alpha 2)
  let r4 := readDouble r3.1 (v.E0 0)
  let r5 := readDouble r4.1 (v.E0 1)
  let r6 := readDouble r5.1 (v.E0 2)
  let r7 := readDouble r6.1 (v.L 0)
  let r8 := readDouble r7.1 (v.L 1)
  let r9 := readDouble r8.1 (v.L 2)
  (r9.1, { v with i := r0.2, alpha := ![r1.2, r2.2, r3.2], E0 := ![r4.2, r5.2, r6.2],
                  L := ![r7.2, r8.2, r9.2] })

/-! ## The record loop and `main` (lines 64-217) -/

/-- What the program finds around it: the value of `getenv("OUTFLUXDIR")`, whether
opening a path for writing succeeds, and the content of `pinched_info.dat` if it can be
opened. -/
structure Env where
  OUTFLUXDIR : Option String
  opens : String → Bool
  pinched_info : Option (List Char)

/-- Result of a run: the argument of `exit` or the value returned by `main`, and the
files opened for writing, in the order they were opened, with what was written. -/
structure Outcome where
  status : Int
  files : List (String × FileBody)

/-- Line 131: the base output path. -/
def baseName (d : String) (i : Int) : String := d ++ "/pinched_" ++ toString i ++ ".dat"

/-- Line 153: the normal-hierarchy output path. -/
def nhName (d : String) (i : Int) : String := d ++ "/nh/pinched_" ++ toString i ++ ".dat"

/-- Line 169: the inverted-hierarchy output path. -/
def ihName (d : String) (i : Int) : String := d ++ "/ih/pinched_" ++ toString i ++ ".dat"

/-- The loop `while ( infile.good() )` of lines 90-214 followed by lines 215-216, with
a bound on the number of iterations; `none` only when the bound is exhausted. -/
noncomputable def recordLoop (hdr : MixingHeader) (env : Env) (th12 : ℚ) :
    Nat → IStream → Vars → List (String × FileBody) → Option Outcome
  | 0, _, _, _ => none
  | fuel + 1, infile, v, fs =>
    if infile.good then
      if (readRecord infile v).1.good then
        match env.OUTFLUXDIR with
        | none => some { status := -1, files := fs }
        | some d =>
          let v1 := convertUnits (readRecord infile v).2
          if env.opens (baseName d v1.i) then
            if |th12| > 0 then
              if env.opens (nhName d v1.i) then
                if env.opens (ihName d v1.i) then
                  recordLoop hdr env th12 fuel (readRecord infile v).1
                    (energyScan hdr th12 v1).1
                    (fs ++ [(baseName d v1.i, (energyScan hdr th12 v1).2.outfile),
                            (nhName d v1.i, (energyScan hdr th12 v1).2.outfile_nh),
                            (ihName d v1.i, (energyScan hdr th12 v1).2.outfile_ih)])
                else
                  some { status := 0, files := fs ++ [(baseName d v1.i, []), (nhName d v1.i, [])] }
              else
                some { status := 0, files := fs ++ [(baseName d v1.i, [])] }
            else
              recordLoop hdr env th12 fuel (readRecord infile v).1
                (energyScan hdr th12 v1).1
                (fs ++ [(baseName d v1.i, (energyScan hdr th12 v1).2.outfile)])
          else
            some { status := 0, files := fs }
      else
        some { status := 0, files := fs }
    else
      some { status := 0, files := fs }

/-- The constant `EXIT_FAILURE` of `<cstdlib>`. -/
def EXIT_FAILURE : Int := 1

/-- The function `main`.  `args` holds `atof(argv[k])` for the arguments after the
program name, so `argc = args.length + 1`.  Each pass of the record loop that continues
consumes at least one character, so the length of the file plus one bounds the number
of passes. -/
noncomputable def main (hdr : MixingHeader) (env : Env) (args : List ℚ) : Option Outcome :=
  if args.length + 1 > 2 then some { status := -1, files := [] }
  else
    match env.pinched_info with
    | none => some { status := EXIT_FAILURE, files := [] }
    | some content =>
      recordLoop hdr env (args.headD 0) (content.length + 1)
        { buf := content, eofbit := false, failbit := false } Vars.init []

/-! ## Definitions used to state the properties -/

/-- The spectral shape as the specification words it:
`(a+1)^(a+1)/(E0*Gamma(a+1)) * (E/E0)^a * exp(-(a+1)*E/E0)`. -/
noncomputable def specShape (E E0 a : ℝ) : ℝ :=
  (a + 1) ^ (a + 1) / (E0 * Real.Gamma (a + 1)) * (E / E0) ^ a * Real.exp (-(a + 1) * E / E0)

/-- The flux as the specification words it, with its constants written out:
`(1/(4*pi*dist^2)) * (L/E0) * shape(E, E0, alpha) * bin_width` when `E0 > 0`, else `0`. -/
noncomputable def specFlux (E L E0 a : ℝ) : ℝ :=
  if E0 > 0 then
    (1 / (4 * Real.pi * (3.08568025e22 : ℝ) ^ 2)) * (L / E0) * specShape E E0 a * 0.0002
  else 0

/-- The flux of species `j` in row `k` of a file body (column `j + 1`; column 0 is the
energy). -/
def fluxAt (body : FileBody) (k : Nat) (j : Fin 3) : Option ℝ :=
  (body.get? k).bind (fun line => line.get? (j.val + 1))

/-- The energy column of a file body, in emission order. -/
def energyColumn (body : FileBody) : List ℝ := body.map (fun line => line.headD 0)

/-- The row written at energy `e` for the converted parameters held in `v`. -/
noncomputable def rowOf (v : Vars) (e : ℝ) : Line :=
  [e, fluxEntry e (v.L 0) (v.E0 0) (v.alpha 0), fluxEntry e (v.L 1) (v.E0 1) (v.alpha 1),
    fluxEntry e (v.L 2) (v.E0 2) (v.alpha 2)]

/-- The text of one field of the parameter file: the field itself and the run of
characters that separates it from what follows. -/
structure FieldText where
  tok : List Char
  sep : List Char

/-- A token that is, as a whole, a 32-bit integer literal. -/
def isIntTok (tok : List Char) : Bool := (scanInt tok).1.isSome && (scanInt tok).2.isEmpty

/-- A token that is, as a whole, a decimal floating literal. -/
def isNumTok (tok : List Char) : Bool := (scanDouble tok).1.isSome && (scanDouble tok).2.isEmpty

/-- The integer an integer field denotes. -/
def intVal (f : FieldText) : Int := ((scanInt f.tok).1).getD 0

/-- The number a numeric field denotes. -/
def numVal (f : FieldText) : ℚ := (((scanDouble f.tok).1).map DecLit.toRat).getD 0

/-- The text of one record, field by field, in the order of source line 4:
`number alpha_nu_e alpha_nubar_e alpha_nu_x Eavg_nu_e Eavg_nubar_e Eavg_nu_x lum_nu_e
lum_nubar_e lum_nu_x`. -/
structure RecordText where
  number : FieldText
  alpha_nue : FieldText
  alpha_nuebar : FieldText
  alpha_nux : FieldText
  Eavg_nue : FieldText
  Eavg_nuebar : FieldText
  Eavg_nux : FieldText
  lum_nue : FieldText
  lum_nuebar : FieldText
  lum_nux : FieldText

/-- The characters of a record up to and including its tenth field, followed by `tail`. -/
def RecordText.front (r : RecordText) (tail : List Char) : List Char :=
  r.number.tok ++ (r.number.sep ++ (r.alpha_nue.tok ++ (r.alpha_nue.sep ++
  (r.alpha_nuebar.tok ++ (r.alpha_nuebar.sep ++ (r.alpha_nux.tok ++ (r.alpha_nux.sep ++
  (r.Eavg_nue.tok ++ (r.Eavg_nue.sep ++ (r.Eavg_nuebar.tok ++ (r.Eavg_nuebar.sep ++
  (r.Eavg_nux.tok ++ (r.Eavg_nux.sep ++ (r.lum_nue.tok ++ (r.lum_nue.sep ++
  (r.lum_nuebar.tok ++ (r.lum_nuebar.sep ++ (r.lum_nux.tok ++ tail))))))))))))))))))

/-- The characters of a record, its final separator included. -/
def RecordText.text (r : RecordText) : List Char := r.front r.lum_nux.sep

/-- The raw values a record denotes, as the ten extractions store them (before the unit
conversion); `F` and `E_nu` are not read from the file. -/
noncomputable def RecordText.vars (r : RecordText) : Vars :=
  { i := intVal r.number
    F := fun _ => 0
    alpha := ![(numVal r.alpha_nue : ℝ), (numVal r.alpha_nuebar : ℝ), (numVal r.alpha_nux : ℝ)]
    E0 := ![(numVal r.Eavg_nue : ℝ), (numVal r.Eavg_nuebar : ℝ), (numVal r.Eavg_nux : ℝ)]
    L := ![(numVal r.lum_nue : ℝ), (numVal r.lum_nuebar : ℝ), (numVal r.lum_nux : ℝ)]
    E_nu := 0 }

/-- Splitting into whitespace-separated fields; `cur` is the field being accumulated,
reversed. -/
def fieldsAux : List Char → List Char → List (List Char)
  | [], cur => if cur.isEmpty then [] else [cur.reverse]
  | c :: cs, cur =>
    if isspace c then
      (if cur.isEmpty then fieldsAux cs [] else cur.reverse :: fieldsAux cs [])
    else fieldsAux cs (c :: cur)

/-- The whitespace-separated fields of a line. -/
def fieldsOf (line : List Char) : List (List Char) := fieldsAux line []

/-- A line that is a well-formed record in the sense of the input format: exactly ten
whitespace-separated fields, an integer and nine numbers. -/
def wellFormedLine (line : List Char) : Bool :=
  match fieldsOf line with
  | [f0, f1, f2, f3, f4, f5, f6, f7, f8, f9] =>
    isIntTok f0 && isNumTok f1 && isNumTok f2 && isNumTok f3 && isNumTok f4 &&
    isNumTok f5 && isNumTok f6 && isNumTok f7 && isNumTok f8 && isNumTok f9
  | _ => false

/-! ## Concrete data for the examples -/

/-- A mixing header whose writers leave the stream unchanged. -/
def exHeader : MixingHeader := { write_nh := fun _ _ _ o => o, write_ih := fun _ _ _ o => o }

/-- A record with the given identifier and last field. -/
def exRecord (id : String) (last : String) : RecordText :=
  { number := ⟨id.toList, [' ']⟩
    alpha_nue := ⟨"2.0".toList, [' ']⟩
    alpha_nuebar := ⟨"2.5".toList, [' ']⟩
    alpha_nux := ⟨"3".toList, [' ', ' ']⟩
    Eavg_nue := ⟨"12".toList, ['\t']⟩
    Eavg_nuebar := ⟨"15".toList, [' ']⟩
    Eavg_nux := ⟨"18.5".toList, [' ']⟩
    lum_nue := ⟨"5e52".toList, [' ']⟩
    lum_nuebar := ⟨"5E52".toList, [' ']⟩
    lum_nux := ⟨last.toList, ['\n']⟩ }

/-- The environment with `OUTFLUXDIR=out`, in which every file can be opened and the
parameter file has the given content. -/
def exEnv (content : List Char) : Env :=
  { OUTFLUXDIR := some "out", opens := fun _ => true, pinched_info := some content }

/-- A line of ten whitespace-separated fields whose tenth field is not a number. -/
def commaLine : List Char := "1 2 2 2 12 15 18 5 5 5,\n".toList

/-! ## The spectral shape -/

open MeasureTheory Set

theorem phi_eq_specShape (E E0 a : ℝ) : phi E E0 a = specShape E E0 a := by
  simp only [phi, specShape]
  congr 2
  ring

/-- On positive energies the shape is a constant times `E ^ alpha * exp (-(r * E))` with
`r = (alpha + 1) / E0`. -/
theorem phi_on_pos (E E0 a : ℝ) (hE : 0 < E) (hE0 : 0 < E0) :
    phi E E0 a
      = (a + 1) ^ (a + 1) / (E0 * Real.Gamma (a + 1)) / E0 ^ a
          * (E ^ (a + 1 - 1) * Real.exp (-((a + 1) / E0 * E))) := by
  simp only [phi]
  rw [Real.div_rpow hE.le hE0.le]
  have h1 : (-1) * (a + 1) * E / E0 = -((a + 1) / E0 * E) := by ring
  have h2 : a + 1 - 1 = a := by ring
  rw [h1, h2]
  ring

/-- Claim C2: for every `E0 > 0` and every `alpha > -1` the spectral shape is normalised:
the integral of `phi(E, E0, alpha)` over `E` in `[0, ∞)` equals `1`. -/
theorem phi_integral_eq_one (E0 alpha : ℝ) (hE0 : 0 < E0) (ha : -1 < alpha) :
    ∫ E in Ici (0 : ℝ), phi E E0 alpha = 1 := by
  have ha1 : 0 < alpha + 1 := by linarith
  have hr : 0 < (alpha + 1) / E0 := div_pos ha1 hE0
  have hG : 0 < Real.Gamma (alpha + 1) := Real.Gamma_pos_of_pos ha1
  rw [integral_Ici_eq_integral_Ioi]
  rw [setIntegral_congr_fun measurableSet_Ioi
    (fun E (hE : E ∈ Ioi (0 : ℝ)) => phi_on_pos E E0 alpha hE hE0)]
  rw [integral_mul_left, Real.integral_rpow_mul_exp_neg_mul_Ioi ha1 hr]
  rw [one_div, inv_div, Real.div_rpow hE0.le ha1.le, Real.rpow_add hE0, Real.rpow_one]
  have h1 : (alpha + 1) ^ (alpha + 1) ≠ 0 := (Real.rpow_pos_of_pos ha1 _).ne'
  have h2 : E0 ^ alpha ≠ 0 := (Real.rpow_pos_of_pos hE0 _).ne'
  field_simp
  ring

theorem phi_integral_eq_one_witness :
    (0 : ℝ) < 3 ∧ (-1 : ℝ) < 2 ∧ ∫ E in Ici (0 : ℝ), phi E 3 2 = 1 :=
  ⟨by norm_num, by norm_num, phi_integral_eq_one 3 2 (by norm_num) (by norm_num)⟩

/-- Claim C7: for every `E0 > 0` and every `alpha > -1` the spectral shape has mean `E0`:
the integral of `E * phi(E, E0, alpha)` over `E` in `[0, ∞)` equals `E0`. -/
theorem phi_mean_eq_E0 (E0 alpha : ℝ) (hE0 : 0 < E0) (ha : -1 < alpha) :
    ∫ E in Ici (0 : ℝ), E * phi E E0 alpha = E0 := by
  have ha1 : 0 < alpha + 1 := by linarith
  have ha2 : 0 < alpha + 2 := by linarith
  have hr : 0 < (alpha + 1) / E0 := div_pos ha1 hE0
  have hG : 0 < Real.Gamma (alpha + 1) := Real.Gamma_pos_of_pos ha1
  rw [integral_Ici_eq_integral_Ioi]
  have hcongr : EqOn (fun E => E * phi E E0 alpha)
      (fun E => (alpha + 1) ^ (alpha + 1) / (E0 * Real.Gamma (alpha + 1)) / E0 ^ alpha
          * (E ^ (alpha + 2 - 1) * Real.exp (-((alpha + 1) / E0 * E)))) (Ioi (0 : ℝ)) := by
    intro E hE
    have hE' : 0 < E := hE
    simp only
    rw [phi_on_pos E E0 alpha hE' hE0]
    have h3 : alpha + 2 - 1 = (alpha + 1 - 1) + 1 := by ring
    rw [h3, Real.rpow_add hE', Real.rpow_one]
    ring
  rw [setIntegral_congr_fun measurableSet_Ioi hcongr]
  rw [integral_mul_left, Real.integral_rpow_mul_exp_neg_mul_Ioi ha2 hr]
  have hGam : Real.Gamma (alpha + 2) = (alpha + 1) * Real.Gamma (alpha + 1) := by
    have h := Real.Gamma_add_one ha1.ne'
    rw [← h]
    congr 1
    ring
  rw [hGam, one_div, inv_div, Real.div_rpow hE0.le ha1.le]
  have e1 : E0 ^ (alpha + 2) = E0 ^ alpha * E0 * E0 := by
    have h : alpha + 2 = alpha + 1 + 1 := by ring
    rw [h, Real.rpow_add hE0, Real.rpow_add hE0, Real.rpow_one]
  have e2 : (alpha + 1) ^ (alpha + 2) = (alpha + 1) ^ (alpha + 1) * (alpha + 1) := by
    have h : alpha + 2 = (alpha + 1) + 1 := by ring
    rw [h, Real.rpow_add ha1, Real.rpow_one]
  rw [e1, e2]
  have h1 : (alpha + 1) ^ (alpha + 1) ≠ 0 := (Real.rpow_pos_of_pos ha1 _).ne'
  have h2 : E0 ^ alpha ≠ 0 := (Real.rpow_pos_of_pos hE0 _).ne'
  field_simp
  ring

theorem phi_mean_eq_E0_witness :
    (0 : ℝ) < 3 ∧ (-1 : ℝ) < 2 ∧ ∫ E in Ici (0 : ℝ), E * phi E 3 2 = 3 :=
  ⟨by norm_num, by norm_num, phi_mean_eq_E0 3 2 (by norm_num) (by norm_num)⟩

/-! ## The flux normalisation -/

theorem fluxEntry_eq_specFlux (E L E0 a : ℝ) : fluxEntry E L E0 a = specFlux E L E0 a := by
  unfold fluxEntry specFlux
  split_ifs with h
  · rw [phi_eq_specShape, dist, estep]
    ring
  · rfl

/-- The flux of a species that is switched off (`E0 ≤ 0`) is exactly zero. -/
theorem fluxEntry_off (E L E0 a : ℝ) (h : E0 ≤ 0) : fluxEntry E L E0 a = 0 := by
  unfold fluxEntry
  rw [if_neg (not_lt.mpr h)]

theorem energyStep_outfile (hdr : MixingHeader) (th12 : ℚ) (v : Vars) (o : Outfiles) :
    (energyStep hdr th12 v o).2.outfile = o.outfile ++ [rowOf v v.E_nu] := by
  unfold energyStep
  by_cases h : |th12| > 0 <;> simp [h, write, rowOf]

theorem energyStep_vars (hdr : MixingHeader) (th12 : ℚ) (v : Vars) (o : Outfiles) :
    (energyStep hdr th12 v o).1.E_nu = v.E_nu + estep ∧
    (energyStep hdr th12 v o).1.L = v.L ∧ (energyStep hdr th12 v o).1.E0 = v.E0 ∧
    (energyStep hdr th12 v o).1.alpha = v.alpha ∧ (energyStep hdr th12 v o).1.i = v.i := by
  simp [energyStep]

theorem rowOf_congr (v w : Vars) (e : ℝ) (hL : w.L = v.L) (hE : w.E0 = v.E0)
    (ha : w.alpha = v.alpha) : rowOf w e = rowOf v e := by
  simp [rowOf, hL, hE, ha]

/-- Loop invariant: after `n` iterations the base stream has gained the rows for the
energies `E_nu, E_nu + estep, ..., E_nu + (n-1) * estep`. -/
theorem energyLoop_outfile (hdr : MixingHeader) (th12 : ℚ) (n : Nat) :
    ∀ (v : Vars) (o : Outfiles),
      (energyLoop hdr th12 n v o).2.outfile
        = o.outfile
            ++ (List.range n).map (fun (k : Nat) => rowOf v (v.E_nu + (k : ℝ) * estep)) := by
  induction n with
  | zero =>
    intro v o
    simp [energyLoop]
  | succ n ih =>
    intro v o
    obtain ⟨hE, hL, hE0, ha, _⟩ := energyStep_vars hdr th12 v o
    rw [energyLoop, ih, energyStep_outfile, List.range_succ_eq_map, List.map_cons, List.map_map,
      List.append_assoc]
    congr 1
    simp only [List.singleton_append, Nat.cast_zero, zero_mul, add_zero]
    congr 1
    apply List.map_congr_left
    intro k _
    simp only [Function.comp, hE, Nat.cast_succ]
    have e : v.E_nu + estep + (k : ℝ) * estep = v.E_nu + ((k : ℝ) + 1) * estep := by ring
    rw [e]
    exact rowOf_congr _ v _ hL hE0 ha

theorem energyScan_outfile (hdr : MixingHeader) (th12 : ℚ) (v : Vars) :
    (energyScan hdr th12 v).2.outfile
      = (List.range 501).map (fun (k : Nat) => rowOf v ((k : ℝ) * estep)) := by
  unfold energyScan
  rw [energyLoop_outfile]
  simp only [List.nil_append, zero_add]
  apply List.map_congr_left
  intro k _
  exact rowOf_congr _ v _ rfl rfl rfl

theorem rowOf_get (v : Vars) (e : ℝ) (j : Fin 3) :
    (rowOf v e).get? (j.val + 1) = some (fluxEntry e (v.L j) (v.E0 j) (v.alpha j)) :=
  match j with
  | ⟨0, _⟩ => rfl
  | ⟨1, _⟩ => rfl
  | ⟨2, _⟩ => rfl

/-- Claim C1: for every record as it was read (raw `alpha[j]`, raw `E0[j]` in MeV, raw
`L[j]` in erg, held in `v`), every species `j` and every grid index `k ≤ 500`, the flux
in row `k` of the base output is, with `E0 = E0_raw/1000`, `L = 624.15 * L_raw`,
`E_k = k * 0.0002`, `dist = 3.08568025e22` and `bin_width = 0.0002`,
`(1/(4*pi*dist^2)) * (L/E0) * shape(E_k, E0, alpha) * bin_width` when `E0 > 0`, and
exactly `0` when `E0 ≤ 0`. -/
theorem base_flux_formula (hdr : MixingHeader) (th12 : ℚ) (v : Vars) (j : Fin 3) (k : Nat)
    (hk : k ≤ 500) :
    fluxAt (energyScan hdr th12 (convertUnits v)).2.outfile k j
      = some (if v.E0 j / 1000 > 0 then
                (1 / (4 * Real.pi * (3.08568025e22 : ℝ) ^ 2))
                  * ((624.15 * v.L j) / (v.E0 j / 1000))
                  * specShape ((k : ℝ) * 0.0002) (v.E0 j / 1000) (v.alpha j) * 0.0002
              else 0) := by
  have hk' : k < 501 := by omega
  rw [energyScan_outfile, fluxAt]
  simp only [List.get?_eq_getElem?, List.getElem?_map, List.getElem?_range hk', Option.map_some',
    Option.some_bind]
  rw [← List.get?_eq_getElem?, rowOf_get, fluxEntry_eq_specFlux]
  simp only [specFlux, convertUnits, estep, gevpererg]
  split_ifs with h
  · rw [mul_comm (v.L j) 624.15]
  · rfl

theorem base_flux_formula_witness :
    fluxAt (energyScan exHeader 0 (convertUnits (exRecord "1" "5e52").vars)).2.outfile 500 2
      = some (if (exRecord "1" "5e52").vars.E0 2 / 1000 > 0 then
                (1 / (4 * Real.pi * (3.08568025e22 : ℝ) ^ 2))
                  * ((624.15 * (exRecord "1" "5e52").vars.L 2)
                      / ((exRecord "1" "5e52").vars.E0 2 / 1000))
                  * specShape (((500 : Nat) : ℝ) * 0.0002)
                      ((exRecord "1" "5e52").vars.E0 2 / 1000)
                      ((exRecord "1" "5e52").vars.alpha 2) * 0.0002
              else 0) :=
  base_flux_formula exHeader 0 (exRecord "1" "5e52").vars 2 500 (by decide)

theorem energyColumn_scan (hdr : MixingHeader) (th12 : ℚ) (v : Vars) :
    energyColumn (energyScan hdr th12 v).2.outfile
      = (List.range 501).map (fun (k : Nat) => (k : ℝ) * 0.0002) := by
  rw [energyScan_outfile, energyColumn, List.map_map]
  apply List.map_congr_left
  intro k _
  simp [rowOf, estep]

/-- Claim C6: for every record (whatever the variables `v` hold) the base output has
exactly 501 rows; its energy column, in emission order, is the grid `k * 0.0002` for
`k = 0..500`, which does not depend on the record; the first energy is `0`, the last is
`0.1`, consecutive rows differ by exactly `0.0002`, and the energies strictly increase. -/
theorem energy_grid (hdr : MixingHeader) (th12 : ℚ) (v : Vars) :
    (energyScan hdr th12 v).2.outfile.length = 501 ∧
    energyColumn (energyScan hdr th12 v).2.outfile
      = (List.range 501).map (fun (k : Nat) => (k : ℝ) * 0.0002) ∧
    (energyColumn (energyScan hdr th12 v).2.outfile).head? = some 0 ∧
    (energyColumn (energyScan hdr th12 v).2.outfile).getLast? = some 0.1 ∧
    (∀ k : Nat, k < 500 → ∃ a b : ℝ,
      (energyColumn (energyScan hdr th12 v).2.outfile).get? k = some a ∧
      (energyColumn (energyScan hdr th12 v).2.outfile).get? (k + 1) = some b ∧
      b - a = 0.0002) ∧
    List.Pairwise (fun a b : ℝ => a < b) (energyColumn (energyScan hdr th12 v).2.outfile) := by
  refine ⟨?_, energyColumn_scan hdr th12 v, ?_, ?_, ?_, ?_⟩
  · rw [energyScan_outfile]
    simp
  · rw [energyColumn_scan, List.range_succ_eq_map]
    simp
  · rw [energyColumn_scan, List.range_succ]
    simp
    norm_num
  · intro k hk
    refine ⟨(k : ℝ) * 0.0002, ((k + 1 : Nat) : ℝ) * 0.0002, ?_, ?_, ?_⟩
    · rw [energyColumn_scan, List.get?_eq_getElem?, List.getElem?_map,
        List.getElem?_range (by omega)]
      rfl
    · rw [energyColumn_scan, List.get?_eq_getElem?, List.getElem?_map,
        List.getElem?_range (by omega)]
      rfl
    · push_cast
      ring
  · rw [energyColumn_scan, List.pairwise_map]
    refine List.Pairwise.imp ?_ (List.pairwise_lt_range 501)
    intro a b hab
    have h : (a : ℝ) < (b : ℝ) := by exact_mod_cast hab
    linarith

/-! ## Formatted extraction: whitespace ends a field -/

theorem skipws_append (ws rest : List Char) (h : ws.all isspace = true) :
    skipws (ws ++ rest) = skipws rest := by
  induction ws with
  | nil => rfl
  | cons c cs ih =>
    simp only [List.all_cons, Bool.and_eq_true] at h
    simp [skipws, h.1, ih h.2]

theorem scanDigits_length (cs : List Char) :
    (scanDigits cs).1.length + (scanDigits cs).2.length = cs.length := by
  induction cs with
  | nil => rfl
  | cons c cs ih =>
    by_cases h : isdigit c = true
    · simp only [scanDigits, h, if_true, List.length_cons]; omega
    · simp [scanDigits, h]

theorem scanSign_length (cs : List Char) : (scanSign cs).2.length ≤ cs.length := by
  cases cs with
  | nil => simp [scanSign]
  | cons c cs =>
    simp only [scanSign]
    split_ifs <;> simp

theorem scanInt_length (cs : List Char) :
    (scanInt cs).2.length ≤ cs.length ∧
    ((scanInt cs).1.isSome = true → (scanInt cs).2.length < cs.length) := by
  have h1 := scanSign_length cs
  have h2 := scanDigits_length (scanSign cs).2
  simp only [scanInt]
  cases hd : (scanDigits (scanSign cs).2).1 with
  | nil => simp [hd] at h2 ⊢; omega
  | cons x xs =>
    simp only [hd, List.length_cons] at h2
    simp only [List.isEmpty_cons, Bool.false_eq_true, if_false]
    split_ifs
    · constructor
      · simp only; omega
      · intro _; simp only; omega
    · constructor
      · simp only; omega
      · intro h; simp at h

theorem scanFrac_length (cs : List Char) : (scanFrac cs).2.length ≤ cs.length := by
  cases cs with
  | nil => simp [scanFrac]
  | cons c cs =>
    simp only [scanFrac]
    split_ifs
    · have := scanDigits_length cs
      simp only [List.length_cons]; omega
    · simp

theorem scanExpDigits_length (cs : List Char) : (scanExpDigits cs).2.length ≤ cs.length := by
  have h1 := scanSign_length cs
  have h2 := scanDigits_length (scanSign cs).2
  simp only [scanExpDigits]
  split_ifs <;> simp only <;> omega

theorem scanExp_length (cs : List Char) : (scanExp cs).2.length ≤ cs.length := by
  cases cs with
  | nil => simp [scanExp]
  | cons c cs =>
    simp only [scanExp]
    split_ifs
    · have := scanExpDigits_length cs
      simp only [List.length_cons]; omega
    · simp

theorem scanDouble_length (cs : List Char) : (scanDouble cs).2.length ≤ cs.length := by
  have h1 := scanSign_length cs
  have h2 := scanDigits_length (scanSign cs).2
  have h3 := scanFrac_length (scanDigits (scanSign cs).2).2
  have h4 := scanExp_length (scanFrac (scanDigits (scanSign cs).2).2).2
  simp only [scanDouble]
  split_ifs <;> simp only <;> omega

theorem skipws_length (cs : List Char) : (skipws cs).length ≤ cs.length := by
  induction cs with
  | nil => simp [skipws]
  | cons c cs ih =>
    simp only [skipws]
    split_ifs
    · simp only [List.length_cons]; omega
    · simp

theorem extract_length {α : Type} (scan : List Char → Option α × List Char)
    (hle : ∀ cs, (scan cs).2.length ≤ cs.length) (s : IStream) :
    (extract scan s).1.buf.length ≤ s.buf.length := by
  have hs := skipws_length s.buf
  unfold extract
  split_ifs
  · split
    · simp
    · rename_i c cs heq
      have := hle (c :: cs)
      rw [heq] at hs
      simp only; omega
  · simp

theorem extract_good {α : Type} (scan : List Char → Option α × List Char) (s : IStream)
    (h : (extract scan s).1.good = true) : s.good = true := by
  by_contra hs
  rw [extract, if_neg hs] at h
  simp [IStream.good] at h

theorem extract_good_lt {α : Type} (scan : List Char → Option α × List Char)
    (hlt : ∀ cs, (scan cs).1.isSome = true → (scan cs).2.length < cs.length) (s : IStream)
    (h : (extract scan s).1.good = true) :
    (extract scan s).1.buf.length < s.buf.length := by
  have hs := skipws_length s.buf
  have hg := extract_good scan s h
  unfold extract at h ⊢
  rw [if_pos hg] at h ⊢
  split at h
  · simp [IStream.good] at h
  · rename_i c cs heq
    rw [heq] at hs
    have hsome : (scan (c :: cs)).1.isSome = true := by
      cases hh : (scan (c :: cs)).1 <;> simp_all [IStream.good]
    have := hlt (c :: cs) hsome
    simp only [heq]; omega

theorem readInt_fst (s : IStream) (x : Int) : (readInt s x).1 = (extract scanInt s).1 := rfl

theorem readDouble_fst (s : IStream) (x : ℝ) :
    (readDouble s x).1 = (extract scanDouble s).1 := rfl

theorem readRecord_consumes (s : IStream) (v : Vars) (h : (readRecord s v).1.good = true) :
    (readRecord s v).1.buf.length < s.buf.length := by
  simp only [readRecord, readInt_fst, readDouble_fst] at h ⊢
  have g8 := extract_good _ _ h
  have g7 := extract_good _ _ g8
  have g6 := extract_good _ _ g7
  have g5 := extract_good _ _ g6
  have g4 := extract_good _ _ g5
  have g3 := extract_good _ _ g4
  have g2 := extract_good _ _ g3
  have g1 := extract_good _ _ g2
  have g0 := extract_good _ _ g1
  have l0 := extract_good_lt scanInt (fun cs => (scanInt_length cs).2) s g0
  have l1 := extract_length scanDouble scanDouble_length (extract scanInt s).1
  have l2 := extract_length scanDouble scanDouble_length _ |>.trans l1
  have l3 := extract_length scanDouble scanDouble_length _ |>.trans l2
  have l4 := extract_length scanDouble scanDouble_length _ |>.trans l3
  have l5 := extract_length scanDouble scanDouble_length _ |>.trans l4
  have l6 := extract_length scanDouble scanDouble_length _ |>.trans l5
  have l7 := extract_length scanDouble scanDouble_length _ |>.trans l6
  have l8 := extract_length scanDouble scanDouble_length _ |>.trans l7
  have l9 := extract_length scanDouble scanDouble_length _ |>.trans l8
  exact lt_of_le_of_lt l9 l0

theorem recordLoop_total (hdr : MixingHeader) (env : Env) (th12 : ℚ) :
    ∀ (fuel : Nat) (s : IStream) (v : Vars) (fs : List (String × FileBody)),
      s.buf.length < fuel → (recordLoop hdr env th12 fuel s v fs).isSome = true := by
  intro fuel
  induction fuel with
  | zero => intro s v fs h; omega
  | succ n ih =>
    intro s v fs h
    rw [recordLoop]
    by_cases hg : s.good = true
    · by_cases hr : (readRecord s v).1.good = true
      · have hlt := readRecord_consumes s v hr
        have hn : (readRecord s v).1.buf.length < n := by omega
        simp only [hg, hr, if_true]
        split
        · rfl
        · split_ifs
          · exact ih _ _ _ hn
          · rfl
          · rfl
          · exact ih _ _ _ hn
          · rfl
      · simp [hg, hr]
    · simp [hg]

theorem main_total (hdr : MixingHeader) (env : Env) (args : List ℚ) :
    (main hdr env args).isSome = true := by
  unfold main
  split_ifs
  · rfl
  · split
    · rfl
    · exact recordLoop_total hdr env _ _ _ _ _ (by simp)

/-! ## The values of the example record -/

/-- The example record denotes identifier `1`, `alpha = (2, 2.5, 3)`,
`E0 = (12, 15, 18.5)` MeV and `L = (5e52, 5e52, 5e52)` erg. -/
theorem exRecord_values :
    intVal (exRecord "1" "5e52").number = 1 ∧
    numVal (exRecord "1" "5e52").alpha_nue = 2 ∧
    numVal (exRecord "1" "5e52").alpha_nuebar = 2.5 ∧
    numVal (exRecord "1" "5e52").alpha_nux = 3 ∧
    numVal (exRecord "1" "5e52").Eavg_nue = 12 ∧
    numVal (exRecord "1" "5e52").Eavg_nuebar = 15 ∧
    numVal (exRecord "1" "5e52").Eavg_nux = 18.5 ∧
    numVal (exRecord "1" "5e52").lum_nue = 5e52 ∧
    numVal (exRecord "1" "5e52").lum_nuebar = 5e52 ∧
    numVal (exRecord "1" "5e52").lum_nux = 5e52 := by
  have h1 : scanDouble "2.0".toList = (some ⟨false, 20, 1, 0⟩, []) := by decide
  have h2 : scanDouble "2.5".toList = (some ⟨false, 25, 1, 0⟩, []) := by decide
  have h3 : scanDouble "3".toList = (some ⟨false, 3, 0, 0⟩, []) := by decide
  have h4 : scanDouble "12".toList = (some ⟨false, 12, 0, 0⟩, []) := by decide
  have h5 : scanDouble "15".toList = (some ⟨false, 15, 0, 0⟩, []) := by decide
  have h6 : scanDouble "18.5".toList = (some ⟨false, 185, 1, 0⟩, []) := by decide
  have h7 : scanDouble "5e52".toList = (some ⟨false, 5, 0, 52⟩, []) := by decide
  have h8 : scanDouble "5E52".toList = (some ⟨false, 5, 0, 52⟩, []) := by decide
  refine ⟨by decide, ?_, ?_, ?_, ?_, ?_, ?_, ?_, ?_, ?_⟩ <;>
    simp only [numVal, exRecord, h1, h2, h3, h4, h5, h6, h7, h8, Option.map_some',
      Option.getD_some, DecLit.toRat] <;>
    norm_num

/-! ## Records that end the run -/

/-- An extraction that leaves nothing unread never leaves the stream good: either it ran
into the end of input (`eofbit`) or it failed (`failbit`). -/
theorem extract_empty_not_good {α : Type} (scan : List Char → Option α × List Char)
    (s : IStream) (h : (extract scan s).1.buf = []) : (extract scan s).1.good = false := by
  by_cases hg : s.good = true
  · unfold extract at h ⊢
    rw [if_pos hg] at h ⊢
    cases hsk : skipws s.buf with
    | nil => rfl
    | cons c cs =>
      rw [hsk] at h
      simp only at h
      simp [IStream.good, h]
  · unfold extract
    rw [if_neg hg]
    simp [IStream.good]

/-- The ordinary end of the file is one such case: when only whitespace is left, the
first extraction reaches the end of input and the stream is not good afterwards. -/
theorem readRecord_blank (ws : List Char) (hws : ws.all isspace = true) (v : Vars) :
    (readRecord { buf := ws, eofbit := false, failbit := false } v).1.good = false := by
  have h : skipws ws = [] := by
    have h0 := skipws_append ws [] hws
    rw [List.append_nil] at h0
    exact h0
  simp [readRecord, readInt, readDouble, extract, IStream.good, h]

/-- A line of ten fields whose tenth field `5,` is not a number is processed as well: the
extraction of the tenth value stops in front of the comma with the stream still good. -/
theorem trailing_garbage_is_processed :
    (fieldsOf commaLine).length = 10 ∧
    (fieldsOf commaLine).getLast? = some "5,".toList ∧
    isNumTok "5,".toList = false ∧
    wellFormedLine commaLine = false ∧
    (main exHeader (exEnv commaLine) []).map (fun o => (o.status, o.files.map Prod.fst))
      = some (0, ["out/pinched_1.dat"]) := by
  refine ⟨by decide, by decide, by decide, by decide, by decide⟩

/-- The same on plain text: with two complete records and no newline after the second,
only the first record's file is written. -/
theorem last_record_without_newline_example :
    (main exHeader
        (exEnv "1 2 2 2 12 15 18 5e52 5e52 5e52\n2 2 2 2 12 15 18 5e52 5e52 5e52".toList)
        []).map (fun o => (o.status, o.files.map Prod.fst))
      = some (0, ["out/pinched_1.dat"]) := by
  decide

/-! ## Exit status when the output location is unavailable -/

/-- Claim C9, the code at the failing inputs: with one complete record to process, a base
file that cannot be opened ends the run with `exit(0)`, and so do a normal-hierarchy file
and an inverted-hierarchy file that cannot be opened (angle `1`); only a missing
`OUTFLUXDIR` ends it with the non-zero `exit(-1)`, as a missing parameter file does with
`EXIT_FAILURE`. -/
theorem open_failure_exits_with_zero (hdr : MixingHeader) :
    (main hdr { OUTFLUXDIR := some "nodir", opens := fun _ => false,
                pinched_info := some (exRecord "1" "5e52").text } []).map (fun o => o.status)
      = some 0 ∧
    (main hdr { OUTFLUXDIR := some "out", opens := fun p => p == "out/pinched_1.dat",
                pinched_info := some (exRecord "1" "5e52").text } [1]).map (fun o => o.status)
      = some 0 ∧
    (main hdr { OUTFLUXDIR := some "out", opens := fun p => p != "out/ih/pinched_1.dat",
                pinched_info := some (exRecord "1" "5e52").text } [1]).map (fun o => o.status)
      = some 0 ∧
    (main hdr { OUTFLUXDIR := none, opens := fun _ => true,
                pinched_info := some (exRecord "1" "5e52").text } []).map (fun o => o.status)
      = some (-1) ∧
    (main hdr { OUTFLUXDIR := some "out", opens := fun _ => true,
                pinched_info := none } []).map (fun o => o.status)
      = some 1 := by
  refine ⟨rfl, rfl, rfl, rfl, rfl⟩

end Pinched
